import Mathlib

set_option linter.unusedVariables false

/-!
Verification development for the magic image CLI (src/magic.py).

The Python source is shallowly embedded below.  Filesystem access
(`pathlib.Path.exists`, `is_dir`, globbing) is modelled by the `FS`
structure of pure predicates (a snapshot of the disk), and the
`pathlib` path decomposition used by the processor (`stem`, `suffix`,
`parent`) by the `PathLib` structure, since the OS is an external
collaborator of the program.  Python strings are modelled by `String`
(a list of characters in this toolchain); the ASCII-level operations
the source uses (`lower`, `isdigit`, `startswith`, `endswith`, `in`,
`replace("x","")`, slicing) are given explicit definitions `py*`
matching Python semantics on the ASCII input the CLI manipulates.
-/

/-- Python `str.lower` on one ASCII character. -/
def pyLowerChar (c : Char) : Char :=
  if 65 ≤ c.toNat ∧ c.toNat ≤ 90 then Char.ofNat (c.toNat + 32) else c

/-- Python `str.lower`. -/
def pyLower (s : String) : String := ⟨s.data.map pyLowerChar⟩

/-- Python `str.isdigit` (ASCII): nonempty and all decimal digits. -/
def pyIsDigitStr (s : String) : Bool :=
  !s.data.isEmpty && s.data.all (fun c => 48 ≤ c.toNat && c.toNat ≤ 57)

/-- Python `int(s)` on a digit string. -/
def toNatDigits (s : String) : Nat :=
  s.data.foldl (fun n c => 10 * n + (c.toNat - 48)) 0

/-- Python `s.startswith(p)`. -/
def pyStartsWith (s p : String) : Bool := p.data.isPrefixOf s.data

/-- Python `s.endswith(p)`. -/
def pyEndsWith (s p : String) : Bool := s.data.reverse.take p.data.length = p.data.reverse

/-- Python `c in s` for a single character. -/
def pyContainsChar (s : String) (c : Char) : Bool := s.data.contains c

/-- Python `s[1:]`. -/
def pyDropFirst (s : String) : String := ⟨s.data.drop 1⟩

/-- Python `s[:-1]`. -/
def pyDropLast (s : String) : String := ⟨s.data.dropLast⟩

/-- Python `s.replace("x", "")` (removes every `x` character). -/
def pyStripX (s : String) : String := ⟨s.data.filter (fun c => c != 'x')⟩

/-- Python truthiness of an optional string (`None` and `""` are falsy). -/
def pyTruthy (o : Option String) : Bool :=
  match o with
  | none => false
  | some s => !s.data.isEmpty

/-- Snapshot of the filesystem: `pathExists` models `Path(p).exists()`,
`isDir` models `Path(p).is_dir()` and `globDir d ext` models
`Path(d).glob("*" + ext)` (as path strings). -/
structure FS where
  pathExists : String → Bool
  isDir : String → Bool
  globDir : String → String → List String

/-- Path decomposition collaborator: `stem`, `ext` and `parent` model
`Path(p).stem`, `Path(p).suffix` and `str(Path(p).parent)`. -/
structure PathLib where
  stem : String → String
  ext : String → String
  parent : String → String

/-- `PRESETS` table from magic.py (size presets). -/
def PRESETS : List (String × String) :=
  [("720p", "x720"), ("1080p", "x1080"), ("1440p", "x1440"),
   ("2k", "x2160"), ("4k", "x3840"), ("8k", "x7680")]

/-- Python `PRESETS.get(k, default)` without the default. -/
def presetLookup (k : String) : Option String :=
  (PRESETS.find? (fun p => p.1 == k)).map (fun p => p.2)

/-- Keys of `PRESETS` (Python `k in PRESETS`). -/
def presetKeys : List String := PRESETS.map (fun p => p.1)

/-- `QUALITY_PRESETS` table from magic.py. -/
def QUALITY_PRESETS : List (String × Nat) :=
  [("max", 100), ("best", 100), ("high", 90), ("medium", 75), ("med", 75), ("low", 50)]

def qualityPresetKeys : List String := QUALITY_PRESETS.map (fun p => p.1)

def qualityPresetVal (k : String) : Nat :=
  ((QUALITY_PRESETS.find? (fun p => p.1 == k)).map (fun p => p.2)).getD 0

/-- `SAFE_WORDS` list from magic.py. -/
def SAFE_WORDS : List String :=
  ["resize", "convert", "to", "save", "as", "format", "formats", "quality",
   "high", "medium", "med", "low", "max", "best", "crop",
   "clean", "remove", "metadata", "paste", "monitor", "stretch", "force", "watch", "clipboard"]

/-- `COMPOUND_GRAVITY` mapping from magic.py. -/
def COMPOUND_GRAVITY : List (String × String) :=
  [("north-east", "NorthEast"), ("northeast", "NorthEast"), ("north_east", "NorthEast"), ("ne", "NorthEast"),
   ("north-west", "NorthWest"), ("northwest", "NorthWest"), ("north_west", "NorthWest"), ("nw", "NorthWest"),
   ("south-east", "SouthEast"), ("southeast", "SouthEast"), ("south_east", "SouthEast"), ("se", "SouthEast"),
   ("south-west", "SouthWest"), ("southwest", "SouthWest"), ("south_west", "SouthWest"), ("sw", "SouthWest")]

def compoundKeys : List String := COMPOUND_GRAVITY.map (fun p => p.1)

def compoundVal (k : String) : String :=
  ((COMPOUND_GRAVITY.find? (fun p => p.1 == k)).map (fun p => p.2)).getD ""

/-- `GRAVITY_TERMS` list from magic.py. -/
def GRAVITY_TERMS : List String :=
  ["top", "upper", "north", "bottom", "lower", "south",
   "left", "west", "right", "east", "center", "middle"]

/-- `SUPPORTED_EXTS` from magic.py.  The source uses a Python `set`
literal; it is modelled as a list in the order literally written. -/
def SUPPORTED_EXTS : List String :=
  [".jpg", ".jpeg", ".png", ".webp", ".bmp", ".tiff", ".gif", ".ico"]

/-- One work unit of the task expander (the tuples built by
`MagickProcessor.process`). -/
structure Job where
  image_path : String
  size : String
  quality : Nat
  fmt : Option String
  pad : Bool
  pad_color : String
  force : Bool
  crop : Bool
  strip : Bool
  watermark : Option String
  gravity : String
deriving Repr, DecidableEq

/-- Candidate output path tried by `safe_filename` at attempt `n`
(`n = 0` is the bare `base + suffix + ext`, `n ≥ 1` appends `_v<n>`).
`folder / name` is modelled as `folder ++ "/" ++ name`. -/
def sfCandidate (folder base sfx ex : String) (n : Nat) : String :=
  if n = 0 then folder ++ "/" ++ base ++ sfx ++ ex
  else folder ++ "/" ++ base ++ sfx ++ "_v" ++ toString n ++ ex

/-- Fuel-indexed unfolding of the `while out_path.exists()` loop of
`safe_filename`; the Python loop has no bound, the fuel only makes the
recursion total and is irrelevant whenever a free candidate exists
within it. -/
def safeFilenameGo (fs : FS) (folder base sfx ex : String) : Nat → Nat → String
  | 0, n => sfCandidate folder base sfx ex n
  | fuel + 1, n =>
    if fs.pathExists (sfCandidate folder base sfx ex n)
    then safeFilenameGo fs folder base sfx ex fuel (n + 1)
    else sfCandidate folder base sfx ex n

def sfFuel : Nat := 1000000

/-- `safe_filename(base, suffix, ext, folder)` from magic.py. -/
def safe_filename (fs : FS) (base sfx ex folder : String) : String :=
  safeFilenameGo fs folder base sfx ex sfFuel 0

/-- `MagickProcessor.process`: expands one input file and the option
lists into the cartesian list of task tuples (sizes outer, qualities
middle, formats inner), defaulting any empty list first. -/
def MagickProcessor.process (image_path : String) (sizes : List String)
    (qualities : List Nat) (formats : List (Option String)) (pad : Bool)
    (pad_color : String) (force : Bool) (crop : Bool) (strip2 : Bool)
    (watermark : Option String) (gravity : String) : List Job :=
  let sizes := if sizes = [] then ["x720"] else sizes
  let qualities := if qualities = [] then [100] else qualities
  let formats := if formats = [] then [(none : Option String)] else formats
  sizes.flatMap (fun s =>
    qualities.flatMap (fun q =>
      formats.map (fun f =>
        ⟨image_path, s, q, f, pad, pad_color, force, crop, strip2, watermark, gravity⟩)))

/-- Resize-string resolution in `execute_task`:
`PRESETS.get(resize.lower(), resize)` followed by the stretch-marker
rule (`force` set, no trailing `!`, `crop` not set). -/
def resolveResizeStr (size : String) (force crop : Bool) : String :=
  let r := (presetLookup (pyLower size)).getD size
  if force && !pyEndsWith r "!" && !crop then r ++ "!" else r

def finalResize (t : Job) : String := resolveResizeStr t.size t.force t.crop

/-- Output-filename suffix built in `execute_task` (lines 301-306). -/
def jobSuffix (rs : String) (t : Job) : String :=
  "_" ++ rs
    ++ (if t.quality ≠ 100 then "_Q" ++ toString t.quality else "")
    ++ (if t.pad then "_pad" else "")
    ++ (if t.crop then "_crop" else "")
    ++ (if t.strip then "_clean" else "")
    ++ (if pyTruthy t.watermark then "_wm" else "")

/-- Output extension: `f".{fmt}" if fmt else path.suffix`. -/
def extOf (pl : PathLib) (t : Job) : String :=
  if pyTruthy t.fmt then "." ++ t.fmt.getD "" else pl.ext t.image_path

/-- Output folder: the `"__INPUT__"` sentinel resolves to the input
file's own folder. -/
def targetFolderOf (pl : PathLib) (output_folder : String) (t : Job) : String :=
  if output_folder = "__INPUT__" then pl.parent t.image_path else output_folder

/-- Geometry section of the argument vector: icon auto-resize, else
crop (fill + center + extent), else pad (resize + background + center
+ extent), else plain resize. -/
def geometryArgs (rs ex : String) (t : Job) : List String :=
  if pyLower ex = ".ico" then
    ["-define", "icon:auto-resize=256,128,64,48,32,16"]
  else if t.crop then
    ["-resize", rs ++ "^", "-gravity", "center", "-extent", rs]
  else if t.pad then
    ["-resize", rs, "-background", t.pad_color, "-gravity", "center", "-extent", rs]
  else
    ["-resize", rs]

/-- Watermark section: emitted only when the reference is truthy and
the file exists on disk (a missing file is skipped with a warning). -/
def watermarkArgs (fs : FS) (t : Job) : List String :=
  if pyTruthy t.watermark then
    if fs.pathExists (t.watermark.getD "") then
      [t.watermark.getD "", "-gravity", t.gravity, "-composite"]
    else []
  else []

/-- `MagickProcessor.execute_task` up to the external invocation:
returns the synthesized argument vector and output path, or `none`
when the input file is missing. -/
def MagickProcessor.execute_task (pl : PathLib) (fs : FS) (magick_cmd : String)
    (output_folder : String) (t : Job) : Option (List String × String) :=
  if fs.pathExists t.image_path then
    let rs := finalResize t
    let sfx := jobSuffix rs t
    let ex := extOf pl t
    let tf := targetFolderOf pl output_folder t
    let outfile := safe_filename fs (pl.stem t.image_path) sfx ex tf
    some ([magick_cmd, t.image_path]
      ++ (if t.strip then ["-strip"] else [])
      ++ geometryArgs rs ex t
      ++ watermarkArgs fs t
      ++ ["-quality", toString t.quality, outfile], outfile)
  else none


/-- Warnings the resolver prints (modelled as data so theorems can
talk about which warnings a parse produces). -/
inductive Warn
  | ambiguousGravity (tok : String)
  | ambiguousQuality (tok : String)
  | watermarkNotFound
deriving Repr, DecidableEq

/-- The configuration dictionary built by `parse_arguments`. -/
structure Config where
  sizes : List String
  images : List String
  qualities : List Nat
  formats : List (Option String)
  output_folder : String
  pad : Bool
  pad_color : String
  force : Bool
  crop : Bool
  strip : Bool
  log_enabled : Bool
  watch : Bool
  clipboard : Bool
  watermark : Option String
  gravity : String
  pdf_merge : Bool
deriving Repr, DecidableEq

/-- The pre-merged settings mapping consumed by `parse_arguments`
(`load_config` output), with the hardcoded `.get` fallbacks of
magic.py as field defaults. -/
structure FileCfg where
  output_folder : String := "output"
  pad_color : String := "black"
  log_enabled : Bool := false
  watermark : Option String := none
  gravity : String := "SouthEast"
  default_quality : Nat := 100
  default_size : String := "x720"
deriving Repr

/-- Parser loop state: the config under construction, the carried
vertical/horizontal alignment strings, the explicit-gravity-override
and watermark-keyword flags, and the warnings printed so far. -/
structure PState where
  cfg : Config
  vAlign : String
  hAlign : String
  gravityOverride : Bool
  watermarkKeyword : Bool
  warns : List Warn
deriving Repr, DecidableEq

/-- Result of classifying one token: process exit (`--version`,
`--init-config`) or continue, possibly consuming the next token
(`skip_next`). -/
inductive StepRes
  | exit
  | cont (st : PState) (skip : Bool)
deriving Repr, DecidableEq

/-- Output-destination heuristics (lines 597-612): the folder value
consumed by `to`/`into`/`output`/`-o`/…, already mapped to the
`"__INPUT__"` sentinel, or `none` when the branch falls through
(keyword last, or next token looks like a size or format and the
keyword is not an explicit dash flag). -/
def outputTake (larg : String) (next : Option String) : Option String :=
  match next with
  | none => none
  | some n =>
    let is_size := presetKeys.contains n || pyIsDigitStr n
      || (pyContainsChar (pyLower n) 'x' && pyIsDigitStr (pyStripX (pyLower n)))
    let is_format := (["jpg", "jpeg", "png", "webp", "bmp", "ico", "tiff"] : List String).contains (pyLower n)
    if pyStartsWith larg "-" || (!is_size && !is_format) then
      some (if (["i", "input", "."] : List String).contains (pyLower n) then "__INPUT__" else n)
    else none

/-- Value taken by the bare `quality` keyword (lines 657-672): a
following digit or percentage token (consumed), else a preceding
quality-preset adjective (not consumed), else fall-through. -/
def qualityTake (prev next : Option String) : Option (Nat × Bool) :=
  match next with
  | some n =>
    if pyIsDigitStr n then some (toNatDigits n, true)
    else if pyEndsWith n "%" && pyIsDigitStr (pyDropLast n) then
      some (toNatDigits (pyDropLast n), true)
    else
      match prev with
      | some p =>
        if qualityPresetKeys.contains (pyLower p) then some (qualityPresetVal (pyLower p), false)
        else none
      | none => none
  | none =>
    match prev with
    | some p =>
      if qualityPresetKeys.contains (pyLower p) then some (qualityPresetVal (pyLower p), false)
      else none
    | none => none

/-- Alignment-word handling inside watermark context (lines 641-650):
compound tokens override gravity directly, vertical and horizontal
words accumulate, and center/middle sets a pure center clearing the
horizontal accumulator. -/
def gravityHandle (st : PState) (larg : String) : PState :=
  if larg ∈ compoundKeys then
    { st with cfg := { st.cfg with gravity := compoundVal larg }, gravityOverride := true }
  else if larg ∈ ["top", "upper", "north"] then { st with vAlign := "North" }
  else if larg ∈ ["bottom", "lower", "south"] then { st with vAlign := "South" }
  else if larg ∈ ["left", "west"] then { st with hAlign := "West" }
  else if larg ∈ ["right", "east"] then { st with hAlign := "East" }
  else if larg ∈ ["center", "middle"] then { st with vAlign := "Center", hAlign := "" }
  else st

/-- One iteration of the token-classification loop of
`parse_arguments` (lines 555-754), with the branches in source order;
branches of the source that fall through on a failed inner test are
modelled by folding the inner test into the branch condition. -/
def step (fs : FS) (wmCtx : Bool) (st : PState) (prev : Option String)
    (arg : String) (next : Option String) : StepRes :=
  if pyLower arg ∈ ["--file", "-file", "-f", "--input", "-input", "-i"] then
    match next with
    | some n => .cont { st with cfg := { st.cfg with images := st.cfg.images ++ [n] } } true
    | none => .cont st false
  else if pyLower arg ∈ ["--resize", "-resize", "-r", "-res", "--res", "--size", "-size", "-s"] then
    match next with
    | some v => .cont { st with cfg := { st.cfg with sizes := (st.cfg.sizes
        ++ [if pyIsDigitStr v then "x" ++ v else v]) } } true
    | none => .cont st false
  else if pyLower arg ∈ ["--format", "-format", "-fmt", "--fmt"] then
    match next with
    | some v => .cont { st with cfg := { st.cfg with formats := st.cfg.formats ++ [some v] } } true
    | none => .cont st false
  else if pyLower arg ∈ ["--quality", "-quality", "-q", "--q"] then
    match next with
    | some v0 =>
      .cont { st with cfg := (if pyIsDigitStr (if pyEndsWith v0 "%" then pyDropLast v0 else v0)
          then { st.cfg with qualities := (st.cfg.qualities
              ++ [toNatDigits (if pyEndsWith v0 "%" then pyDropLast v0 else v0)]) }
          else st.cfg) } true
    | none => .cont st false
  else if pyLower arg ∈ ["to", "into", "output", "-o", "--o", "-output", "--output", "--out", "-out"]
      ∧ (outputTake (pyLower arg) next).isSome = true then
    .cont { st with cfg := { st.cfg with
      output_folder := (outputTake (pyLower arg) next).getD st.cfg.output_folder } } true
  else if pyLower arg ∈ ["--watermark", "-watermark", "-wm"] then
    match next with
    | some n => .cont { st with cfg := { st.cfg with watermark := some n } } true
    | none => .cont st false
  else if pyLower arg ∈ ["watermark", "wm"] then
    .cont { st with watermarkKeyword := true } false
  else if pyLower arg = "remove" ∧ next.map pyLower = some "metadata" then
    .cont { st with cfg := { st.cfg with strip := true } } true
  else if pyLower arg ∈ ["--gravity", "-g"] then
    match next with
    | some n => .cont { st with cfg := { st.cfg with gravity := n }, gravityOverride := true } true
    | none => .cont st false
  else if (pyLower arg ∈ GRAVITY_TERMS ∨ pyLower arg ∈ compoundKeys)
      ∧ (wmCtx = true ∨ fs.pathExists arg = false) then
    if wmCtx then .cont (gravityHandle st (pyLower arg)) false
    else .cont { st with warns := st.warns ++ [Warn.ambiguousGravity arg] } false
  else if pyLower arg = "quality" ∧ (qualityTake prev next).isSome = true then
    .cont { st with cfg := { st.cfg with qualities := (st.cfg.qualities
        ++ [((qualityTake prev next).getD (0, false)).1]) } }
      ((qualityTake prev next).getD (0, false)).2
  else if pyLower arg ∈ ["--version", "-v"] ∨ pyLower arg = "--init-config" then
    .exit
  else if pyLower arg ∈ ["--watch", "-watch", "-w", "--monitor", "-monitor", "watch", "monitor"] then
    .cont { st with cfg := { st.cfg with watch := true } } false
  else if pyLower arg ∈ ["--clipboard", "-clipboard", "-c", "-clip", "--paste", "-paste", "clipboard", "paste"] then
    .cont { st with cfg := { st.cfg with clipboard := true } } false
  else if pyLower arg ∈ ["--crop", "-crop", "crop"] then
    .cont { st with cfg := { st.cfg with crop := true } } false
  else if pyLower arg ∈ ["--strip", "-strip", "-s", "--clean", "-clean", "--remove-metadata", "-remove-metadata", "clean"] then
    .cont { st with cfg := { st.cfg with strip := true } } false
  else if pyLower arg ∈ ["--no-logs", "-no-logs"] then
    .cont { st with cfg := { st.cfg with log_enabled := false } } false
  else if pyLower arg ∈ ["!", "--force", "-force", "--stretch", "-stretch", "--!", "-!", "stretch", "force"] then
    .cont { st with cfg := { st.cfg with force := true } } false
  else if pyLower arg ∈ ["format", "formats"] then
    .cont st false
  else if pyLower arg ∈ ["jpg", "jpeg", "png", "webp", "bmp", "ico", "tiff"] then
    .cont { st with cfg := { st.cfg with formats := st.cfg.formats ++ [some (pyLower arg)] } } false
  else if pyLower arg ∈ ["pdf", "--pdf", "-pdf"] then
    if prev.map pyLower ∈ [some "format", some "formats", some "--format", some "-fmt"] then
      .cont { st with cfg := { st.cfg with formats := st.cfg.formats ++ [some "pdf"] } } false
    else
      .cont { st with cfg := { st.cfg with pdf_merge := true } } false
  else if pyLower arg ∈ ["pad", "fill", "--pad", "-pad"] then
    .cont { st with cfg := { st.cfg with pad := true } } false
  else if pyLower arg ∈ ["black", "white", "transparent"] ∧ st.cfg.images = [] then
    .cont { st with cfg := { st.cfg with pad_color := pyLower arg } } false
  else if pyLower arg ∈ SAFE_WORDS ∧ fs.pathExists arg = false then
    .cont st false
  else if (pyLower arg ∈ presetKeys ∨ pyIsDigitStr (pyLower arg) = true
      ∨ (pyContainsChar (pyLower arg) 'x' = true ∧ pyIsDigitStr (pyStripX (pyLower arg)) = true))
      ∧ fs.pathExists arg = false then
    if pyIsDigitStr (pyLower arg) then
      .cont { st with
        cfg := { st.cfg with sizes := st.cfg.sizes ++ ["x" ++ pyLower arg] },
        warns := (st.warns
          ++ (if 40 ≤ toNatDigits (pyLower arg) ∧ toNatDigits (pyLower arg) ≤ 100
              then [Warn.ambiguousQuality (pyLower arg)] else [])) } false
    else
      .cont { st with cfg := { st.cfg with sizes := st.cfg.sizes ++ [pyLower arg] } } false
  else if pyStartsWith (pyLower arg) "q" = true ∧ pyIsDigitStr (pyDropFirst (pyLower arg)) = true then
    .cont { st with cfg := { st.cfg with qualities := (st.cfg.qualities
        ++ [toNatDigits (pyDropFirst (pyLower arg))]) } } false
  else if pyEndsWith (pyLower arg) "%" = true ∧ pyIsDigitStr (pyDropLast (pyLower arg)) = true then
    .cont { st with cfg := { st.cfg with qualities := (st.cfg.qualities
        ++ [toNatDigits (pyDropLast (pyLower arg))]) } } false
  else if fs.isDir arg then
    .cont { st with cfg := { st.cfg with images := (st.cfg.images
        ++ SUPPORTED_EXTS.flatMap (fs.globDir arg)) } } false
  else
    .cont { st with cfg := { st.cfg with images := st.cfg.images ++ [arg] } } false

/-- The token loop of `parse_arguments`: one forward pass with
`skip_next` handling; `prev` carries the previous raw token (Python
indexes `args[i-1]` on the raw list, so a consumed value still acts as
lookbehind for the following token). -/
def parseLoop (fs : FS) (wmCtx : Bool) : PState → Option String → List String → Option PState
  | st, _, [] => some st
  | st, prev, [a] =>
    match step fs wmCtx st prev a none with
    | .exit => none
    | .cont st2 _ => some st2
  | st, prev, a :: b :: rest =>
    match step fs wmCtx st prev a (some b) with
    | .exit => none
    | .cont st2 true => parseLoop fs wmCtx st2 (some b) rest
    | .cont st2 false => parseLoop fs wmCtx st2 (some a) (b :: rest)

/-- `_merge_spaced_args`: merges `NUMBER x NUMBER` token triples. -/
def mergeSpaced : List String → List String
  | a :: b :: c :: rest =>
    if pyIsDigitStr a = true ∧ pyLower b = "x" ∧ pyIsDigitStr c = true then
      (a ++ "x" ++ c) :: mergeSpaced rest
    else
      a :: mergeSpaced (b :: c :: rest)
  | l => l

/-- `_resolve_gravity`: combines the carried vertical/horizontal
alignment words at end of parsing unless an explicit override fired. -/
def resolveGravity (cfg : Config) (v h : String) (ov : Bool) : Config :=
  if ov = false ∧ (v ≠ "" ∨ h ≠ "") then
    if v = "Center" ∧ h = "" then { cfg with gravity := "Center" }
    else if v ++ h ≠ "" then { cfg with gravity := v ++ h } else cfg
  else cfg

/-- Candidate watermark files probed by `_resolve_watermark`:
`watermark.png` and `logo.png` first, then `watermark.<ext>` and
`logo.<ext>` over the supported extensions other than `.png`. -/
def wmCandidates : List String :=
  ["watermark.png", "logo.png"]
    ++ (SUPPORTED_EXTS.filter (fun e => e != ".png")).flatMap
        (fun e => ["watermark" ++ e, "logo" ++ e])

/-- `_resolve_watermark`: when the bare watermark keyword was used and
no watermark is set, picks the first existing candidate file, else
warns and leaves the watermark unset. -/
def resolveWatermark (fs : FS) (cfg : Config) (warns : List Warn) (wmKeyword : Bool) :
    Config × List Warn :=
  if wmKeyword = true ∧ pyTruthy cfg.watermark = false then
    match wmCandidates.find? (fun c => fs.pathExists c) with
    | some c => ({ cfg with watermark := some c }, warns)
    | none => (cfg, warns ++ [Warn.watermarkNotFound])
  else (cfg, warns)

/-- Outcome of `parse_arguments`: `noArgs` models the `None` return on
an empty argument list, `exited` the `sys.exit(0)` paths. -/
inductive ParseResult
  | noArgs
  | exited
  | ok (cfg : Config) (warns : List Warn)
deriving Repr, DecidableEq

def ParseResult.cfg? : ParseResult → Option Config
  | .ok c _ => some c
  | _ => none

def ParseResult.warns? : ParseResult → Option (List Warn)
  | .ok _ w => some w
  | _ => none

/-- Initial configuration dictionary of `parse_arguments`
(lines 518-536), from the settings mapping. -/
def initConfig (fc : FileCfg) : Config :=
  { sizes := [], images := [], qualities := [], formats := [],
    output_folder := fc.output_folder, pad := false, pad_color := fc.pad_color,
    force := false, crop := false, strip := false, log_enabled := fc.log_enabled,
    watch := false, clipboard := false, watermark := fc.watermark,
    gravity := fc.gravity, pdf_merge := false }

/-- `parse_arguments`: normalizes the tokens, computes the run-wide
watermark context, runs the classification loop, resolves gravity and
watermark, and defaults empty size/quality/format lists. -/
def parse_arguments (fc : FileCfg) (fs : FS) (rawArgs : List String) : ParseResult :=
  if rawArgs = [] then .noArgs
  else
    let args := mergeSpaced rawArgs
    let wmCtx := args.any (fun a =>
      (["--watermark", "-wm", "watermark", "wm"] : List String).contains (pyLower a))
    match parseLoop fs wmCtx ⟨initConfig fc, "", "", false, false, []⟩ none args with
    | none => .exited
    | some st =>
      let c1 := resolveGravity st.cfg st.vAlign st.hAlign st.gravityOverride
      let pr := resolveWatermark fs c1 st.warns st.watermarkKeyword
      .ok { pr.1 with
        sizes := if pr.1.sizes = [] then [fc.default_size] else pr.1.sizes,
        qualities := if pr.1.qualities = [] then [fc.default_quality] else pr.1.qualities,
        formats := if pr.1.formats = [] then [(none : Option String)] else pr.1.formats } pr.2

/-- Lowercased tokens that the classification chain of
`parse_arguments` consumes (as a flag, keyword, color, mode switch or
format) before the implicit-image fallback, plus the bare token `x`
which the `_merge_spaced_args` pre-pass can merge.  A token outside
this list that names an existing file always falls through to the
image bucket. -/
def stealWords : List String :=
  ["--file", "-file", "-f", "--input", "-input", "-i",
   "--resize", "-resize", "-r", "-res", "--res", "--size", "-size", "-s",
   "--format", "-format", "-fmt", "--fmt",
   "--quality", "-quality", "-q", "--q",
   "to", "into", "output", "-o", "--o", "-output", "--output", "--out", "-out",
   "--watermark", "-watermark", "-wm", "watermark", "wm",
   "remove",
   "--gravity", "-g",
   "quality",
   "--version", "-v", "--init-config",
   "--watch", "-watch", "-w", "--monitor", "-monitor", "watch", "monitor",
   "--clipboard", "-clipboard", "-c", "-clip", "--paste", "-paste", "clipboard", "paste",
   "--crop", "-crop", "crop",
   "--strip", "-strip", "--clean", "-clean", "--remove-metadata", "-remove-metadata", "clean",
   "--no-logs", "-no-logs",
   "!", "--force", "-force", "--stretch", "-stretch", "--!", "-!", "stretch", "force",
   "format", "formats",
   "jpg", "jpeg", "png", "webp", "bmp", "ico", "tiff",
   "pdf", "--pdf", "-pdf",
   "pad", "fill", "--pad", "-pad",
   "black", "white", "transparent",
   "x"]

/-- A token that is an existing plain file, does not collide with any
consumed keyword of the resolver, and is not of quality-shorthand
shape (`q<digits>` or `<digits>%`): such a token always resolves to an
input image. -/
def plainToken (fs : FS) (t : String) : Prop :=
  fs.pathExists t = true ∧ fs.isDir t = false ∧ pyLower t ∉ stealWords ∧
  ¬(pyStartsWith (pyLower t) "q" = true ∧ pyIsDigitStr (pyDropFirst (pyLower t)) = true) ∧
  ¬(pyEndsWith (pyLower t) "%" = true ∧ pyIsDigitStr (pyDropLast (pyLower t)) = true)

instance plainTokenDecidable (fs : FS) (t : String) : Decidable (plainToken fs t) := by
  unfold plainToken
  infer_instance

theorem safeFilenameGo_spec (fs : FS) (folder base sfx ex : String) :
    ∀ (fuel s k : Nat), k ≤ fuel →
    fs.pathExists (sfCandidate folder base sfx ex (s + k)) = false →
    (∀ j < k, fs.pathExists (sfCandidate folder base sfx ex (s + j)) = true) →
    safeFilenameGo fs folder base sfx ex fuel s = sfCandidate folder base sfx ex (s + k) := by
  intro fuel
  induction fuel with
  | zero =>
    intro s k hk hfree hbusy
    interval_cases k
    simp [safeFilenameGo]
  | succ m ih =>
    intro s k hk hfree hbusy
    by_cases hx : fs.pathExists (sfCandidate folder base sfx ex s) = true
    · match k, hk with
      | 0, _ => rw [Nat.add_zero] at hfree; rw [hfree] at hx; exact absurd hx (by simp)
      | k2 + 1, hk =>
        have step1 : safeFilenameGo fs folder base sfx ex (m + 1) s
            = safeFilenameGo fs folder base sfx ex m (s + 1) := by
          simp [safeFilenameGo, hx]
        rw [step1]
        have heq : s + 1 + k2 = s + (k2 + 1) := by omega
        rw [show s + (k2 + 1) = s + 1 + k2 by omega] at hfree ⊢
        exact ih (s + 1) k2 (by omega) hfree
          (fun j hj => by
            have := hbusy (j + 1) (by omega)
            rwa [show s + (j + 1) = s + 1 + j by omega] at this)
    · have hx0 : fs.pathExists (sfCandidate folder base sfx ex s) = false := by
        revert hx; cases fs.pathExists (sfCandidate folder base sfx ex s) <;> simp
      have hk0 : k = 0 := by
        by_contra hne
        have := hbusy 0 (by omega)
        rw [Nat.add_zero] at this
        rw [this] at hx0
        exact absurd hx0 (by simp)
      subst hk0
      simp [safeFilenameGo, hx0]

/-- C4: output-path selection is deterministic and collision-free.
If the first `n` candidates (`base+sfx+ex`, then `_v1`, `_v2`, …)
exist on disk and candidate `n` does not, `safe_filename` returns
candidate `n` (so: no collision gives the bare path, one collision
gives `_v1`, two give `_v2`, and in general the first unused counter
is chosen), and a second invocation against the same filesystem
snapshot returns the same path. -/
theorem safe_filename_first_unused (fs : FS) (base sfx ex folder : String) (n : Nat)
    (hn : n ≤ sfFuel)
    (hfree : fs.pathExists (sfCandidate folder base sfx ex n) = false)
    (hbusy : ∀ m < n, fs.pathExists (sfCandidate folder base sfx ex m) = true) :
    safe_filename fs base sfx ex folder = sfCandidate folder base sfx ex n ∧
    safe_filename fs base sfx ex folder = safe_filename fs base sfx ex folder := by
  refine ⟨?_, rfl⟩
  have := safeFilenameGo_spec fs folder base sfx ex sfFuel 0 n hn
    (by simpa using hfree) (fun j hj => by simpa using hbusy j hj)
  simpa [safe_filename] using this

/-- Witness for C4: with `photo_x720.jpg` and `photo_x720_v1.jpg`
already on disk, the chosen path is `photo_x720_v2.jpg`. -/
theorem safe_filename_first_unused_witness :
    safe_filename
      ⟨fun s => s == "output/photo_x720.jpg" || s == "output/photo_x720_v1.jpg",
       fun _ => false, fun _ _ => []⟩
      "photo" "_x720" ".jpg" "output" = "output/photo_x720_v2.jpg" ∧
    (2 : Nat) ≤ sfFuel := by
  refine ⟨?_, by decide⟩
  have h := safe_filename_first_unused
    ⟨fun s => s == "output/photo_x720.jpg" || s == "output/photo_x720_v1.jpg",
     fun _ => false, fun _ _ => []⟩
    "photo" "_x720" ".jpg" "output" 2 (by decide) (by decide)
    (by intro m hm; interval_cases m <;> decide)
  rw [h.1]
  decide

lemma flatMapLengthProd2 {β γ δ : Type} (lq : List β) (lf : List γ) (g : β → γ → δ) :
    (lq.flatMap (fun q => lf.map (g q))).length = lq.length * lf.length := by
  induction lq with
  | nil => simp
  | cons b tq ih =>
    simp only [List.flatMap_cons, List.length_append, List.length_map, ih, List.length_cons]
    ring

lemma flatMapLengthProd3 {α β γ δ : Type} (ls : List α) (lq : List β) (lf : List γ)
    (g : α → β → γ → δ) :
    (ls.flatMap (fun s => lq.flatMap (fun q => lf.map (g s q)))).length
      = ls.length * lq.length * lf.length := by
  induction ls with
  | nil => simp
  | cons a ts ih =>
    simp only [List.flatMap_cons, List.length_append, ih, List.length_cons]
    rw [flatMapLengthProd2 lq lf (g a)]
    ring

/-- C2: on an effective configuration (all three lists non-empty, as
the defaulter guarantees), `MagickProcessor.process` returns exactly
the cartesian product of sizes, qualities and formats — sizes varying
slowest, qualities middle, formats innermost — so its length is
`|sizes| * |qualities| * |formats|`, and the result is empty iff one
of the three lists is empty. -/
theorem process_cartesian (image_path : String) (sizes : List String)
    (qualities : List Nat) (formats : List (Option String)) (pad : Bool)
    (pad_color : String) (force crop strip2 : Bool) (watermark : Option String)
    (gravity : String) (hs : sizes ≠ []) (hq : qualities ≠ []) (hf : formats ≠ []) :
    MagickProcessor.process image_path sizes qualities formats pad pad_color force
        crop strip2 watermark gravity
      = sizes.flatMap (fun s => qualities.flatMap (fun q => formats.map (fun f =>
          (⟨image_path, s, q, f, pad, pad_color, force, crop, strip2, watermark, gravity⟩ : Job)))) ∧
    (MagickProcessor.process image_path sizes qualities formats pad pad_color force
        crop strip2 watermark gravity).length
      = sizes.length * qualities.length * formats.length ∧
    (MagickProcessor.process image_path sizes qualities formats pad pad_color force
        crop strip2 watermark gravity = []
      ↔ sizes = [] ∨ qualities = [] ∨ formats = []) := by
  have hdef : MagickProcessor.process image_path sizes qualities formats pad pad_color force
      crop strip2 watermark gravity
      = sizes.flatMap (fun s => qualities.flatMap (fun q => formats.map (fun f =>
          (⟨image_path, s, q, f, pad, pad_color, force, crop, strip2, watermark, gravity⟩ : Job)))) := by
    simp only [MagickProcessor.process, if_neg hs, if_neg hq, if_neg hf]
  have hlen : (MagickProcessor.process image_path sizes qualities formats pad pad_color force
      crop strip2 watermark gravity).length
      = sizes.length * qualities.length * formats.length := by
    rw [hdef]
    exact flatMapLengthProd3 sizes qualities formats
      (fun s q f => (⟨image_path, s, q, f, pad, pad_color, force, crop, strip2, watermark, gravity⟩ : Job))
  refine ⟨hdef, hlen, ?_, ?_⟩
  · intro hempty
    have h0 : sizes.length * qualities.length * formats.length = 0 := by
      rw [← hlen, hempty]; rfl
    rcases Nat.mul_eq_zero.mp h0 with h1 | h1
    · rcases Nat.mul_eq_zero.mp h1 with h2 | h2
      · exact Or.inl (List.length_eq_zero.mp h2)
      · exact Or.inr (Or.inl (List.length_eq_zero.mp h2))
    · exact Or.inr (Or.inr (List.length_eq_zero.mp h1))
  · intro h
    rcases h with h | h | h
    · exact absurd h hs
    · exact absurd h hq
    · exact absurd h hf

/-- Witness for C2: two sizes, two qualities, one format give the four
jobs enumerated in size-major, quality-minor order. -/
theorem process_cartesian_witness :
    MagickProcessor.process "photo.jpg" ["720p", "1080p"] [80, 100] [some "png"]
        false "black" false false false none "SouthEast"
      = [⟨"photo.jpg", "720p", 80, some "png", false, "black", false, false, false, none, "SouthEast"⟩,
         ⟨"photo.jpg", "720p", 100, some "png", false, "black", false, false, false, none, "SouthEast"⟩,
         ⟨"photo.jpg", "1080p", 80, some "png", false, "black", false, false, false, none, "SouthEast"⟩,
         ⟨"photo.jpg", "1080p", 100, some "png", false, "black", false, false, false, none, "SouthEast"⟩] ∧
    (MagickProcessor.process "photo.jpg" ["720p", "1080p"] [80, 100] [some "png"]
        false "black" false false false none "SouthEast").length = 2 * 2 * 1 := by
  have h := process_cartesian "photo.jpg" ["720p", "1080p"] [80, 100] [some "png"]
    false "black" false false false none "SouthEast"
    (by decide) (by decide) (by simp)
  refine ⟨?_, by simpa using h.2.1⟩
  rw [h.1]
  rfl

lemma append_bang_ne (s : String) : s ++ "!" ≠ s := by
  intro h
  have h2 := congrArg String.length h
  rw [String.length_append] at h2
  have h3 : ("!" : String).length = 1 := rfl
  omega

lemma ne_append_bang (s : String) : s ≠ s ++ "!" :=
  fun h => append_bang_ne s h.symm

/-- C6: the stretch marker is appended to the resolved geometry iff
`force` is set, `crop` is not set, and the geometry does not already
end in the marker; with `crop` set, `force` has no effect on the
geometry at all. -/
theorem stretch_marker_iff (size : String) (force crop : Bool) :
    (resolveResizeStr size force true = resolveResizeStr size false true) ∧
    (resolveResizeStr size force crop = (presetLookup (pyLower size)).getD size ++ "!"
      ↔ force = true ∧ crop = false
          ∧ pyEndsWith ((presetLookup (pyLower size)).getD size) "!" = false) := by
  constructor
  · simp [resolveResizeStr]
  · cases force <;> cases crop <;>
      cases h : pyEndsWith ((presetLookup (pyLower size)).getD size) "!" <;>
      simp [resolveResizeStr, h, append_bang_ne, ne_append_bang]

/-- C5: for a job whose output extension is the icon format (case
insensitively), the geometry section of the synthesized vector is
exactly the fixed auto-resize directive with dimensions
256,128,64,48,32,16; it contains no `-resize`, `-extent` or
`-background` directive derived from the requested geometry, and the
full synthesized vector is input, optional `-strip`, the auto-resize
directive, the watermark section, then quality and output path. -/
theorem ico_auto_resize (pl : PathLib) (fs : FS) (magick_cmd output_folder : String)
    (t : Job) (hico : pyLower (extOf pl t) = ".ico")
    (hex : fs.pathExists t.image_path = true) :
    geometryArgs (finalResize t) (extOf pl t) t
      = ["-define", "icon:auto-resize=256,128,64,48,32,16"] ∧
    "-resize" ∉ geometryArgs (finalResize t) (extOf pl t) t ∧
    "-extent" ∉ geometryArgs (finalResize t) (extOf pl t) t ∧
    "-background" ∉ geometryArgs (finalResize t) (extOf pl t) t ∧
    ∃ out, MagickProcessor.execute_task pl fs magick_cmd output_folder t
      = some ([magick_cmd, t.image_path] ++ (if t.strip then ["-strip"] else [])
          ++ ["-define", "icon:auto-resize=256,128,64,48,32,16"]
          ++ watermarkArgs fs t ++ ["-quality", toString t.quality, out], out) := by
  have hgeo : geometryArgs (finalResize t) (extOf pl t) t
      = ["-define", "icon:auto-resize=256,128,64,48,32,16"] := by
    simp [geometryArgs, hico]
  refine ⟨hgeo, ?_, ?_, ?_, ?_⟩
  · rw [hgeo]; decide
  · rw [hgeo]; decide
  · rw [hgeo]; decide
  · refine ⟨safe_filename fs (pl.stem t.image_path) (jobSuffix (finalResize t) t)
      (extOf pl t) (targetFolderOf pl output_folder t), ?_⟩
    simp only [MagickProcessor.execute_task, hex, if_pos]
    rw [hgeo]

/-- Witness for C5: a job converting `photo.jpg` to format `ico`. -/
theorem ico_auto_resize_witness :
    geometryArgs
        (finalResize ⟨"photo.jpg", "720p", 100, some "ico", false, "black", false, false, false, none, "SouthEast"⟩)
        (extOf ⟨fun _ => "photo", fun _ => ".jpg", fun _ => "."⟩
          ⟨"photo.jpg", "720p", 100, some "ico", false, "black", false, false, false, none, "SouthEast"⟩)
        ⟨"photo.jpg", "720p", 100, some "ico", false, "black", false, false, false, none, "SouthEast"⟩
      = ["-define", "icon:auto-resize=256,128,64,48,32,16"] ∧
    (∃ out, MagickProcessor.execute_task
        ⟨fun _ => "photo", fun _ => ".jpg", fun _ => "."⟩
        ⟨fun s => s == "photo.jpg", fun _ => false, fun _ _ => []⟩ "magick" "output"
        ⟨"photo.jpg", "720p", 100, some "ico", false, "black", false, false, false, none, "SouthEast"⟩
      = some (["magick", "photo.jpg"] ++ (if false then ["-strip"] else [])
          ++ ["-define", "icon:auto-resize=256,128,64,48,32,16"]
          ++ watermarkArgs ⟨fun s => s == "photo.jpg", fun _ => false, fun _ _ => []⟩
              ⟨"photo.jpg", "720p", 100, some "ico", false, "black", false, false, false, none, "SouthEast"⟩
          ++ ["-quality", toString (100 : Nat), out], out)) := by
  have h := ico_auto_resize ⟨fun _ => "photo", fun _ => ".jpg", fun _ => "."⟩
    ⟨fun s => s == "photo.jpg", fun _ => false, fun _ _ => []⟩ "magick" "output"
    ⟨"photo.jpg", "720p", 100, some "ico", false, "black", false, false, false, none, "SouthEast"⟩
    (by decide) (by decide)
  exact ⟨h.1, h.2.2.2.2⟩

lemma safe_filename_nocollision (fs : FS) (base sfx ex folder : String)
    (hfree : fs.pathExists (folder ++ "/" ++ base ++ sfx ++ ex) = false) :
    safe_filename fs base sfx ex folder = folder ++ "/" ++ base ++ sfx ++ ex := by
  have h := safeFilenameGo_spec fs folder base sfx ex sfFuel 0 0 (by decide)
    (by simpa [sfCandidate] using hfree) (fun j hj => absurd hj (by omega))
  simpa [safe_filename, sfCandidate] using h

/-- C3 (amended): for an existing input with no output-path collision,
the output path is folder, then the input stem, then the suffix built
in fixed order — geometry, `_Q<quality>` when quality is not 100,
`_pad`, `_crop`, `_clean` — then `_wm` whenever the watermark
reference is truthy (even if the watermark file is missing on disk),
then the output extension; the composite step itself is emitted iff
the reference is truthy and the file exists. -/
theorem execute_task_suffix (pl : PathLib) (fs : FS) (mc folder : String) (t : Job)
    (hex : fs.pathExists t.image_path = true)
    (hfree : fs.pathExists (targetFolderOf pl folder t ++ "/" ++ pl.stem t.image_path
        ++ jobSuffix (finalResize t) t ++ extOf pl t) = false) :
    (MagickProcessor.execute_task pl fs mc folder t).map Prod.snd
      = some (targetFolderOf pl folder t ++ "/" ++ pl.stem t.image_path
          ++ ("_" ++ finalResize t
              ++ (if t.quality ≠ 100 then "_Q" ++ toString t.quality else "")
              ++ (if t.pad then "_pad" else "")
              ++ (if t.crop then "_crop" else "")
              ++ (if t.strip then "_clean" else "")
              ++ (if pyTruthy t.watermark then "_wm" else ""))
          ++ extOf pl t) ∧
    ("-composite" ∈ watermarkArgs fs t
      ↔ pyTruthy t.watermark = true ∧ fs.pathExists (t.watermark.getD "") = true) := by
  constructor
  · have hsf := safe_filename_nocollision fs (pl.stem t.image_path)
      (jobSuffix (finalResize t) t) (extOf pl t) (targetFolderOf pl folder t) hfree
    simp only [MagickProcessor.execute_task, hex, if_pos, Option.map_some']
    rw [hsf]
    rfl
  · cases hw : pyTruthy t.watermark with
    | false => simp [watermarkArgs, hw]
    | true =>
      cases hwe : fs.pathExists (t.watermark.getD "") with
      | false => simp [watermarkArgs, hw, hwe]
      | true => simp [watermarkArgs, hw, hwe]

/-- Witness for C3 (amended): quality 90 with an existing watermark
gives output `photo_x720_Q90_wm.jpg` and a composite step. -/
theorem execute_task_suffix_witness :
    (MagickProcessor.execute_task ⟨fun _ => "photo", fun _ => ".jpg", fun _ => "."⟩
        ⟨fun s => s == "photo.jpg" || s == "logo.png", fun _ => false, fun _ _ => []⟩
        "magick" "output"
        ⟨"photo.jpg", "720p", 90, none, false, "black", false, false, false, some "logo.png", "SouthEast"⟩).map Prod.snd
      = some "output/photo_x720_Q90_wm.jpg" ∧
    "-composite" ∈ watermarkArgs
        ⟨fun s => s == "photo.jpg" || s == "logo.png", fun _ => false, fun _ _ => []⟩
        ⟨"photo.jpg", "720p", 90, none, false, "black", false, false, false, some "logo.png", "SouthEast"⟩ := by
  have h := execute_task_suffix ⟨fun _ => "photo", fun _ => ".jpg", fun _ => "."⟩
    ⟨fun s => s == "photo.jpg" || s == "logo.png", fun _ => false, fun _ _ => []⟩
    "magick" "output"
    ⟨"photo.jpg", "720p", 90, none, false, "black", false, false, false, some "logo.png", "SouthEast"⟩
    (by decide) (by decide)
  exact ⟨h.1.trans (by decide), h.2.mpr (by decide)⟩

/-- Counterexample for C3 as stated: with a watermark reference that
does not exist on disk, the suffix still carries `_wm` (the output
path ends in `_wm.jpg`) while no composite step is emitted. -/
theorem execute_task_wm_suffix_cx :
    MagickProcessor.execute_task ⟨fun _ => "photo", fun _ => ".jpg", fun _ => "."⟩
        ⟨fun s => s == "photo.jpg", fun _ => false, fun _ _ => []⟩ "magick" "output"
        ⟨"photo.jpg", "720p", 100, none, false, "black", false, false, false, some "missing.png", "SouthEast"⟩
      = some (["magick", "photo.jpg", "-resize", "x720", "-quality", "100", "output/photo_x720_wm.jpg"],
          "output/photo_x720_wm.jpg") ∧
    watermarkArgs ⟨fun s => s == "photo.jpg", fun _ => false, fun _ _ => []⟩
        ⟨"photo.jpg", "720p", 100, none, false, "black", false, false, false, some "missing.png", "SouthEast"⟩
      = [] ∧
    "-composite" ∉ ["magick", "photo.jpg", "-resize", "x720", "-quality", "100", "output/photo_x720_wm.jpg"] := by
  refine ⟨?_, by decide, by decide⟩
  decide

lemma pyLowerChar_digit (c : Char) (h : (48 ≤ c.toNat && c.toNat ≤ 57) = true) :
    pyLowerChar c = c := by
  rw [Bool.and_eq_true] at h
  have h1 := of_decide_eq_true h.1
  have h2 := of_decide_eq_true h.2
  unfold pyLowerChar
  rw [if_neg]
  intro hc
  omega

lemma map_lower_digits (l : List Char)
    (h : l.all (fun c => 48 ≤ c.toNat && c.toNat ≤ 57) = true) :
    l.map pyLowerChar = l := by
  induction l with
  | nil => rfl
  | cons a l2 ih =>
    rw [List.all_cons, Bool.and_eq_true] at h
    rw [List.map_cons, pyLowerChar_digit a h.1, ih h.2]

lemma pyLower_digit (t : String) (ht : pyIsDigitStr t = true) : pyLower t = t := by
  cases t with
  | mk l =>
    unfold pyIsDigitStr at ht
    rw [Bool.and_eq_true] at ht
    unfold pyLower
    congr 1
    exact map_lower_digits l ht.2

lemma not_mem_of_all_not_digit (t : String) (ht : pyIsDigitStr t = true) :
    ∀ (l : List String), l.all (fun s => !pyIsDigitStr s) = true → t ∉ l := by
  intro l
  induction l with
  | nil => intro _ hm; exact absurd hm (List.not_mem_nil t)
  | cons a l2 ih =>
    intro hl hm
    rw [List.all_cons, Bool.and_eq_true] at hl
    rcases List.mem_cons.mp hm with he | hm2
    · subst he; rw [ht] at hl; exact absurd hl.1 (by decide)
    · exact ih hl.2 hm2

lemma str_ne_of_digit (t : String) (ht : pyIsDigitStr t = true) (s : String)
    (hs : pyIsDigitStr s = false) : t ≠ s :=
  fun he => by rw [he, hs] at ht; exact absurd ht (by decide)

lemma not_mem_sub (t : String) (big : List String) (h : t ∉ big) (l : List String)
    (hsub : ∀ x ∈ l, x ∈ big) : t ∉ l :=
  fun hm => h (hsub t hm)

lemma ne_of_not_mem (t : String) (big : List String) (h : t ∉ big) (s : String)
    (hs : s ∈ big) : t ≠ s :=
  fun he => h (he ▸ hs)

lemma string_eq_empty_of_length_zero (s : String) (h : s.length = 0) : s = "" := by
  cases s with
  | mk l =>
    cases l with
    | nil => rfl
    | cons a t => exact absurd h (by simp [String.length])

lemma append_ne_empty (v h : String) (hvh : v ≠ "" ∨ h ≠ "") : v ++ h ≠ "" := by
  intro he
  have hl := congrArg String.length he
  rw [String.length_append] at hl
  have h0 : ("" : String).length = 0 := rfl
  rcases hvh with hv | hh
  · exact hv (string_eq_empty_of_length_zero v (by omega))
  · exact hh (string_eq_empty_of_length_zero h (by omega))

/-- C7: in watermark context without an explicit override, the final
gravity is combined once at the end of parsing from the last carried
vertical and horizontal components (`Center` with no horizontal gives
a pure center); concretely, `watermark top right` resolves to
`NorthEast`, `center` gives pure `Center` and clears a previously
accumulated horizontal word, and later alignment words overwrite
earlier ones of the same axis. -/
theorem gravity_accumulation :
    (∀ (cfg : Config) (v h : String),
      (resolveGravity cfg v h false).gravity
        = if v = "" ∧ h = "" then cfg.gravity
          else if v = "Center" ∧ h = "" then "Center" else v ++ h) ∧
    (parse_arguments {} ⟨fun _ => false, fun _ => false, fun _ _ => []⟩
        ["watermark", "top", "right"]).cfg?.map Config.gravity = some "NorthEast" ∧
    (parse_arguments {} ⟨fun _ => false, fun _ => false, fun _ _ => []⟩
        ["watermark", "center"]).cfg?.map Config.gravity = some "Center" ∧
    (parse_arguments {} ⟨fun _ => false, fun _ => false, fun _ _ => []⟩
        ["watermark", "left", "center"]).cfg?.map Config.gravity = some "Center" ∧
    (parse_arguments {} ⟨fun _ => false, fun _ => false, fun _ _ => []⟩
        ["watermark", "top", "bottom", "left", "right"]).cfg?.map Config.gravity
      = some "SouthEast" := by
  refine ⟨?_, by decide, by decide, by decide, by decide⟩
  intro cfg v h
  by_cases h1 : v = "" ∧ h = ""
  · rw [if_pos h1]
    obtain ⟨hv, hh⟩ := h1
    subst hv; subst hh
    simp [resolveGravity]
  · rw [if_neg h1]
    by_cases h2 : v = "Center" ∧ h = ""
    · rw [if_pos h2]
      obtain ⟨hv, hh⟩ := h2
      subst hv; subst hh
      simp [resolveGravity]
    · rw [if_neg h2]
      have hvh : v ≠ "" ∨ h ≠ "" := by
        rcases not_and_or.mp h1 with hv | hh
        · exact Or.inl hv
        · exact Or.inr hh
      unfold resolveGravity
      rw [if_pos ⟨rfl, hvh⟩, if_neg h2, if_pos (append_ne_empty v h hvh)]

/-- Counterexample for C8 as stated: the bare integer `80` preceded by
the `-q` flag (not the literal keyword `quality`) is classified as a
quality, not a size — the resulting qualities are `[80]` and the sizes
are only the default. -/
theorem integer_token_is_size_cx :
    (parse_arguments {} ⟨fun _ => false, fun _ => false, fun _ _ => []⟩ ["-q", "80"]).cfg?.map
        (fun c => (c.qualities, c.sizes))
      = some ([80], ["x720"]) := by decide

/-- C8 (amended): a bare integer token that actually reaches the
per-token classification chain unconsumed (it is not the value of a
preceding flag or of the `quality` keyword — those are consumed with
`skip_next` and never classified) and does not name an existing path
is always classified as size `x<N>` and never as a quality, with the
ambiguity warning printed iff its value lies in `[40, 100]`;
end to end, a lone `99` yields size `x99` (with the warning) and a
lone `300` yields `x300` (without), both with only default
qualities. -/
theorem integer_token_is_size (fs : FS) (wmCtx : Bool) (st : PState)
    (prev next : Option String) (t : String)
    (ht : pyIsDigitStr t = true) (hex : fs.pathExists t = false) :
    (step fs wmCtx st prev t next
      = .cont { st with
          cfg := { st.cfg with sizes := st.cfg.sizes ++ ["x" ++ t] },
          warns := (st.warns ++ (if 40 ≤ toNatDigits t ∧ toNatDigits t ≤ 100
              then [Warn.ambiguousQuality t] else [])) } false) ∧
    (parse_arguments {} ⟨fun _ => false, fun _ => false, fun _ _ => []⟩ ["99"]).cfg?.map
        (fun c => (c.sizes, c.qualities)) = some (["x99"], [100]) ∧
    (parse_arguments {} ⟨fun _ => false, fun _ => false, fun _ _ => []⟩ ["99"]).warns?
      = some [Warn.ambiguousQuality "99"] ∧
    (parse_arguments {} ⟨fun _ => false, fun _ => false, fun _ _ => []⟩ ["300"]).cfg?.map
        (fun c => (c.sizes, c.qualities)) = some (["x300"], [100]) ∧
    (parse_arguments {} ⟨fun _ => false, fun _ => false, fun _ _ => []⟩ ["300"]).warns?
      = some [] := by
  refine ⟨?_, by decide, by decide, by decide, by decide⟩
  have hlow := pyLower_digit t ht
  have h01 := not_mem_of_all_not_digit t ht ["--file", "-file", "-f", "--input", "-input", "-i"] (by decide)
  have h02 := not_mem_of_all_not_digit t ht ["--resize", "-resize", "-r", "-res", "--res", "--size", "-size", "-s"] (by decide)
  have h03 := not_mem_of_all_not_digit t ht ["--format", "-format", "-fmt", "--fmt"] (by decide)
  have h04 := not_mem_of_all_not_digit t ht ["--quality", "-quality", "-q", "--q"] (by decide)
  have h05 := not_mem_of_all_not_digit t ht ["to", "into", "output", "-o", "--o", "-output", "--output", "--out", "-out"] (by decide)
  have h06 := not_mem_of_all_not_digit t ht ["--watermark", "-watermark", "-wm"] (by decide)
  have h07 := not_mem_of_all_not_digit t ht ["watermark", "wm"] (by decide)
  have h08 := str_ne_of_digit t ht "remove" (by decide)
  have h09 := not_mem_of_all_not_digit t ht ["--gravity", "-g"] (by decide)
  have h10 := not_mem_of_all_not_digit t ht GRAVITY_TERMS (by decide)
  have h11 := not_mem_of_all_not_digit t ht compoundKeys (by decide)
  have h12 := str_ne_of_digit t ht "quality" (by decide)
  have h13 := not_mem_of_all_not_digit t ht ["--version", "-v"] (by decide)
  have h14 := str_ne_of_digit t ht "--init-config" (by decide)
  have h15 := not_mem_of_all_not_digit t ht ["--watch", "-watch", "-w", "--monitor", "-monitor", "watch", "monitor"] (by decide)
  have h16 := not_mem_of_all_not_digit t ht ["--clipboard", "-clipboard", "-c", "-clip", "--paste", "-paste", "clipboard", "paste"] (by decide)
  have h17 := not_mem_of_all_not_digit t ht ["--crop", "-crop", "crop"] (by decide)
  have h18 := not_mem_of_all_not_digit t ht ["--strip", "-strip", "-s", "--clean", "-clean", "--remove-metadata", "-remove-metadata", "clean"] (by decide)
  have h19 := not_mem_of_all_not_digit t ht ["--no-logs", "-no-logs"] (by decide)
  have h20 := not_mem_of_all_not_digit t ht ["!", "--force", "-force", "--stretch", "-stretch", "--!", "-!", "stretch", "force"] (by decide)
  have h21 := not_mem_of_all_not_digit t ht ["format", "formats"] (by decide)
  have h22 := not_mem_of_all_not_digit t ht ["jpg", "jpeg", "png", "webp", "bmp", "ico", "tiff"] (by decide)
  have h23 := not_mem_of_all_not_digit t ht ["pdf", "--pdf", "-pdf"] (by decide)
  have h24 := not_mem_of_all_not_digit t ht ["pad", "fill", "--pad", "-pad"] (by decide)
  have h25 := not_mem_of_all_not_digit t ht ["black", "white", "transparent"] (by decide)
  have h26 := not_mem_of_all_not_digit t ht SAFE_WORDS (by decide)
  simp [step, hlow, ht, hex, h01, h02, h03, h04, h05, h06, h07, h08, h09, h10, h11, h12,
    h13, h14, h15, h16, h17, h18, h19, h20, h21, h22, h23, h24, h25, h26]

/-- Witness for C8 (amended): the lone unconsumed token `50` becomes
size `x50` with the ambiguity warning. -/
theorem integer_token_is_size_witness :
    step ⟨fun _ => false, fun _ => false, fun _ _ => []⟩ false
        ⟨initConfig {}, "", "", false, false, []⟩ none "50" none
      = .cont ⟨{ initConfig {} with sizes := ["x50"] }, "", "", false, false,
          [Warn.ambiguousQuality "50"]⟩ false := by
  have h := integer_token_is_size ⟨fun _ => false, fun _ => false, fun _ _ => []⟩ false
    ⟨initConfig {}, "", "", false, false, []⟩ none none "50" (by decide) (by decide)
  exact h.1.trans (by decide)

lemma findFirstExisting {α : Type} (p : α → Bool) : ∀ (pre : List α) (c : α) (rest2 : List α),
    (∀ d ∈ pre, p d = false) → p c = true →
    (pre ++ c :: rest2).find? p = some c := by
  intro pre
  induction pre with
  | nil => intro c r _ hc; simp [List.find?, hc]
  | cons a t ih =>
    intro c r hall hc
    have ha := hall a (by simp)
    simp only [List.cons_append, List.find?, ha]
    exact ih c r (fun d hd => hall d (by simp [hd])) hc

lemma findNoneOfAllFalse {α : Type} (p : α → Bool) : ∀ (l : List α),
    (∀ d ∈ l, p d = false) → l.find? p = none := by
  intro l
  induction l with
  | nil => intro _; rfl
  | cons a t ih =>
    intro h
    simp only [List.find?, h a (by simp)]
    exact ih (fun d hd => h d (by simp [hd]))

/-- C9: on a bare watermark keyword with no watermark supplied or
configured, the resolver probes, in order, `watermark.png`, `logo.png`
and then `watermark.<ext>`/`logo.<ext>` over the other supported
extensions, takes the first candidate that exists, and if none exists
it prints a warning and leaves the watermark unset; end to end, a lone
`watermark` token picks up an existing `watermark.jpg`, and with no
candidate on disk the watermark stays unset with the warning. -/
theorem watermark_fallback_search :
    wmCandidates = ["watermark.png", "logo.png", "watermark.jpg", "logo.jpg",
      "watermark.jpeg", "logo.jpeg", "watermark.webp", "logo.webp", "watermark.bmp",
      "logo.bmp", "watermark.tiff", "logo.tiff", "watermark.gif", "logo.gif",
      "watermark.ico", "logo.ico"] ∧
    (∀ (fs : FS) (cfg : Config) (warns : List Warn),
      pyTruthy cfg.watermark = false →
      (∀ c ∈ wmCandidates, fs.pathExists c = false) →
      resolveWatermark fs cfg warns true = (cfg, warns ++ [Warn.watermarkNotFound])) ∧
    (∀ (fs : FS) (cfg : Config) (warns : List Warn) (pre rest2 : List String) (c : String),
      pyTruthy cfg.watermark = false →
      wmCandidates = pre ++ c :: rest2 →
      (∀ d ∈ pre, fs.pathExists d = false) →
      fs.pathExists c = true →
      resolveWatermark fs cfg warns true = ({ cfg with watermark := some c }, warns)) ∧
    (parse_arguments {} ⟨fun s => s == "watermark.jpg", fun _ => false, fun _ _ => []⟩
        ["watermark"]).cfg?.map Config.watermark = some (some "watermark.jpg") ∧
    (parse_arguments {} ⟨fun _ => false, fun _ => false, fun _ _ => []⟩
        ["watermark"]).cfg?.map Config.watermark = some none ∧
    (parse_arguments {} ⟨fun _ => false, fun _ => false, fun _ _ => []⟩
        ["watermark"]).warns? = some [Warn.watermarkNotFound] := by
  refine ⟨by decide, ?_, ?_, by decide, by decide, by decide⟩
  · intro fs cfg warns htr hall
    unfold resolveWatermark
    rw [if_pos ⟨rfl, htr⟩, findNoneOfAllFalse _ _ hall]
  · intro fs cfg warns pre rest2 c htr hsplit hpre hc
    unfold resolveWatermark
    rw [if_pos ⟨rfl, htr⟩, hsplit, findFirstExisting _ pre c rest2 hpre hc]

/-- Witness for C9: with only `watermark.jpg` on disk, the first two
candidates fail and the watermark resolves to `watermark.jpg`. -/
theorem watermark_fallback_search_witness :
    resolveWatermark ⟨fun s => s == "watermark.jpg", fun _ => false, fun _ _ => []⟩
        (initConfig {}) [] true
      = ({ initConfig {} with watermark := some "watermark.jpg" }, []) := by
  have h := watermark_fallback_search
  exact h.2.2.1 ⟨fun s => s == "watermark.jpg", fun _ => false, fun _ _ => []⟩
    (initConfig {}) [] ["watermark.png", "logo.png"]
    ["logo.jpg", "watermark.jpeg", "logo.jpeg", "watermark.webp", "logo.webp",
     "watermark.bmp", "logo.bmp", "watermark.tiff", "logo.tiff", "watermark.gif",
     "logo.gif", "watermark.ico", "logo.ico"] "watermark.jpg"
    (by decide) (by decide) (by decide) (by decide)

/-- C10: a `black`/`white`/`transparent` token (case-insensitively)
seen while no input image has yet been registered is always consumed
as the pad color, for every filesystem — no existence check is made —
so such a file name can only become an input when an image token
precedes it, in which case it falls through to the image bucket;
end to end, a lone `black` naming an existing file still yields no
inputs and pad color `black`. -/
theorem pad_color_heuristic (fs : FS) (wmCtx : Bool) (st : PState)
    (prev next : Option String) (t : String)
    (hcol : pyLower t ∈ (["black", "white", "transparent"] : List String)) :
    (st.cfg.images = [] →
      step fs wmCtx st prev t next
        = .cont { st with cfg := { st.cfg with pad_color := pyLower t } } false) ∧
    (st.cfg.images ≠ [] → fs.isDir t = false →
      step fs wmCtx st prev t next
        = .cont { st with cfg := { st.cfg with images := st.cfg.images ++ [t] } } false) ∧
    (parse_arguments {} ⟨fun s => s == "black", fun _ => false, fun _ _ => []⟩ ["black"]).cfg?.map
        (fun c => (c.images, c.pad_color)) = some ([], "black") := by
  have hc3 : pyLower t = "black" ∨ pyLower t = "white" ∨ pyLower t = "transparent" := by
    simpa using hcol
  refine ⟨?_, ?_, by decide⟩
  · intro himg
    rcases hc3 with hlow | hlow | hlow <;>
      simp [step, hlow, himg, GRAVITY_TERMS, compoundKeys, COMPOUND_GRAVITY, SAFE_WORDS,
        presetKeys, PRESETS, pyIsDigitStr, pyContainsChar, pyStripX, pyStartsWith, pyEndsWith]
  · intro himg hdir
    rcases hc3 with hlow | hlow | hlow <;>
      simp [step, hlow, himg, hdir, GRAVITY_TERMS, compoundKeys, COMPOUND_GRAVITY, SAFE_WORDS,
        presetKeys, PRESETS, pyIsDigitStr, pyContainsChar, pyStripX, pyStartsWith, pyEndsWith]

/-- Witness for C10: the first token `black` is consumed as pad color
even though a file named `black` exists. -/
theorem pad_color_heuristic_witness :
    step ⟨fun s => s == "black", fun _ => false, fun _ _ => []⟩ false
        ⟨initConfig {}, "", "", false, false, []⟩ none "black" none
      = .cont { (⟨initConfig {}, "", "", false, false, []⟩ : PState) with
          cfg := { initConfig {} with pad_color := pyLower "black" } } false := by
  have h := pad_color_heuristic ⟨fun s => s == "black", fun _ => false, fun _ _ => []⟩ false
    ⟨initConfig {}, "", "", false, false, []⟩ none none "black" (by decide)
  exact h.1 rfl

lemma step_plain (fs : FS) (st : PState) (prev next : Option String) (t : String)
    (hp : plainToken fs t) :
    step fs false st prev t next
      = .cont { st with cfg := { st.cfg with images := st.cfg.images ++ [t] } } false := by
  obtain ⟨hex, hdir, hsteal, hq, hpc⟩ := hp
  have h01 := not_mem_sub _ _ hsteal ["--file", "-file", "-f", "--input", "-input", "-i"] (by decide)
  have h02 := not_mem_sub _ _ hsteal ["--resize", "-resize", "-r", "-res", "--res", "--size", "-size", "-s"] (by decide)
  have h03 := not_mem_sub _ _ hsteal ["--format", "-format", "-fmt", "--fmt"] (by decide)
  have h04 := not_mem_sub _ _ hsteal ["--quality", "-quality", "-q", "--q"] (by decide)
  have h05 := not_mem_sub _ _ hsteal ["to", "into", "output", "-o", "--o", "-output", "--output", "--out", "-out"] (by decide)
  have h06 := not_mem_sub _ _ hsteal ["--watermark", "-watermark", "-wm"] (by decide)
  have h07 := not_mem_sub _ _ hsteal ["watermark", "wm"] (by decide)
  have h08 := ne_of_not_mem _ _ hsteal "remove" (by decide)
  have h09 := not_mem_sub _ _ hsteal ["--gravity", "-g"] (by decide)
  have h12 := ne_of_not_mem _ _ hsteal "quality" (by decide)
  have h13 := not_mem_sub _ _ hsteal ["--version", "-v"] (by decide)
  have h14 := ne_of_not_mem _ _ hsteal "--init-config" (by decide)
  have h15 := not_mem_sub _ _ hsteal ["--watch", "-watch", "-w", "--monitor", "-monitor", "watch", "monitor"] (by decide)
  have h16 := not_mem_sub _ _ hsteal ["--clipboard", "-clipboard", "-c", "-clip", "--paste", "-paste", "clipboard", "paste"] (by decide)
  have h17 := not_mem_sub _ _ hsteal ["--crop", "-crop", "crop"] (by decide)
  have h18 := not_mem_sub _ _ hsteal ["--strip", "-strip", "-s", "--clean", "-clean", "--remove-metadata", "-remove-metadata", "clean"] (by decide)
  have h19 := not_mem_sub _ _ hsteal ["--no-logs", "-no-logs"] (by decide)
  have h20 := not_mem_sub _ _ hsteal ["!", "--force", "-force", "--stretch", "-stretch", "--!", "-!", "stretch", "force"] (by decide)
  have h21 := not_mem_sub _ _ hsteal ["format", "formats"] (by decide)
  have h22 := not_mem_sub _ _ hsteal ["jpg", "jpeg", "png", "webp", "bmp", "ico", "tiff"] (by decide)
  have h23 := not_mem_sub _ _ hsteal ["pdf", "--pdf", "-pdf"] (by decide)
  have h24 := not_mem_sub _ _ hsteal ["pad", "fill", "--pad", "-pad"] (by decide)
  have h25 := not_mem_sub _ _ hsteal ["black", "white", "transparent"] (by decide)
  simp [step, hex, hdir, hq, hpc, h01, h02, h03, h04, h05, h06, h07, h08, h09, h12,
    h13, h14, h15, h16, h17, h18, h19, h20, h21, h22, h23, h24, h25]

lemma mergeSpaced_plain (ts : List String) (h : ∀ x ∈ ts, pyLower x ≠ "x") :
    mergeSpaced ts = ts := by
  induction ts with
  | nil => rfl
  | cons a ts2 ih =>
    cases ts2 with
    | nil => rfl
    | cons b ts3 =>
      cases ts3 with
      | nil => rfl
      | cons c rest =>
        have hb : pyLower b ≠ "x" := h b (by simp)
        have hcond : ¬(pyIsDigitStr a = true ∧ pyLower b = "x" ∧ pyIsDigitStr c = true) :=
          fun hc => hb hc.2.1
        simp only [mergeSpaced, if_neg hcond]
        rw [ih (fun x hx => h x (List.mem_cons_of_mem a hx))]

lemma wmAny_plain (ts : List String) (h : ∀ x ∈ ts, pyLower x ∉ stealWords) :
    (ts.any fun a =>
      (["--watermark", "-wm", "watermark", "wm"] : List String).contains (pyLower a)) = false := by
  induction ts with
  | nil => rfl
  | cons a ts2 ih =>
    have ha : (["--watermark", "-wm", "watermark", "wm"] : List String).contains (pyLower a)
        = false := by
      cases hcc : (["--watermark", "-wm", "watermark", "wm"] : List String).contains (pyLower a) with
      | false => rfl
      | true =>
        unfold List.contains at hcc
        have hmem := List.mem_of_elem_eq_true hcc
        have hsub : ∀ x ∈ (["--watermark", "-wm", "watermark", "wm"] : List String),
            x ∈ stealWords := by decide
        exact absurd (hsub _ hmem) (h a (by simp))
    rw [List.any_cons, ha, Bool.false_or]
    exact ih (fun x hx => h x (List.mem_cons_of_mem a hx))

lemma parseLoop_plain (fs : FS) : ∀ (ts : List String) (st : PState) (prev : Option String),
    (∀ x ∈ ts, plainToken fs x) →
    parseLoop fs false st prev ts
      = some { st with cfg := { st.cfg with images := st.cfg.images ++ ts } } := by
  intro ts
  induction ts with
  | nil =>
    intro st prev h
    simp [parseLoop]
  | cons a rest ih =>
    intro st prev h
    cases rest with
    | nil =>
      simp [parseLoop, step_plain fs st prev none a (h a (by simp))]
    | cons b rest2 =>
      simp only [parseLoop, step_plain fs st prev (some b) a (h a (by simp))]
      rw [ih { st with cfg := { st.cfg with images := st.cfg.images ++ [a] } } (some a)
        (fun x hx => h x (List.mem_cons_of_mem a hx))]
      simp [List.append_assoc]

/-- C1 (amended): a non-empty token sequence consisting solely of
paths of existing plain files, none of which (case-insensitively)
collides with a keyword consumed by the resolver (option flags, output
keywords, watermark/quality/mode keywords, format names, `pdf`,
pad keywords, pad color names, the bare `x` merged by the normalizer)
nor has quality-shorthand shape (`q<digits>`, `<digits>%`), resolves
to exactly that sequence as `images` in order, with sizes, qualities
and formats holding only the defaulted values, all flags clear, and no
warnings. -/
theorem parse_only_existing_files (fc : FileCfg) (fs : FS) (ts : List String)
    (hne : ts ≠ []) (hp : ∀ x ∈ ts, plainToken fs x) :
    parse_arguments fc fs ts
      = .ok { sizes := [fc.default_size],
              images := ts,
              qualities := [fc.default_quality],
              formats := [none],
              output_folder := fc.output_folder,
              pad := false,
              pad_color := fc.pad_color,
              force := false,
              crop := false,
              strip := false,
              log_enabled := fc.log_enabled,
              watch := false,
              clipboard := false,
              watermark := fc.watermark,
              gravity := fc.gravity,
              pdf_merge := false } [] := by
  have hmerge : mergeSpaced ts = ts :=
    mergeSpaced_plain ts (fun x hx => ne_of_not_mem _ _ (hp x hx).2.2.1 "x" (by decide))
  have hwm := wmAny_plain ts (fun x hx => (hp x hx).2.2.1)
  have hloop := parseLoop_plain fs ts ⟨initConfig fc, "", "", false, false, []⟩ none hp
  simp only [parse_arguments, if_neg hne, hmerge, hwm, hloop]
  simp [resolveGravity, resolveWatermark, initConfig]

/-- Counterexample for C1 as stated: the single token `crop` naming an
existing file is consumed as the crop flag, so the resolved inputs are
empty rather than `["crop"]`. -/
theorem parse_only_existing_files_cx :
    (parse_arguments {} ⟨fun s => s == "crop", fun _ => false, fun _ _ => []⟩ ["crop"]).cfg?.map
        (fun c => (c.images, c.crop))
      = some ([], true) := by decide

/-- Witness for C1 (amended): two existing image files resolve to
exactly those inputs with defaulted sizes, qualities and formats. -/
theorem parse_only_existing_files_witness :
    parse_arguments {} ⟨fun s => s == "photo.jpg" || s == "pic.png", fun _ => false, fun _ _ => []⟩
        ["photo.jpg", "pic.png"]
      = .ok { sizes := ["x720"],
              images := ["photo.jpg", "pic.png"],
              qualities := [100],
              formats := [none],
              output_folder := "output",
              pad := false,
              pad_color := "black",
              force := false,
              crop := false,
              strip := false,
              log_enabled := false,
              watch := false,
              clipboard := false,
              watermark := none,
              gravity := "SouthEast",
              pdf_merge := false } [] := by
  have h := parse_only_existing_files {}
    ⟨fun s => s == "photo.jpg" || s == "pic.png", fun _ => false, fun _ _ => []⟩
    ["photo.jpg", "pic.png"] (by decide) (by decide)
  exact h.trans (by decide)
